import Mathlib

/-!
Shallow embedding of the openpanel ClickHouse fluent query builder
(the clickhouse-query source file: value escaping, condition building,
the Query class, the WhereGroupBuilder class) and of the cohort
retention pipeline of the chart router (interval computation, the
generated per-index SQL expressions, and the processCohortData
aggregation), together with theorems checking the specification
claims against these definitions.
-/

/-- Character code 39, the single quote that delimits SQL string
literals. -/
def sqQuote : Char := Char.ofNat 39

/-- Character code 92, the backslash used by the quoting routine. -/
def sqBackslash : Char := Char.ofNat 92

/-- Scalar SQL values, mirroring the source union type SqlValue, which
is string or number or boolean or Date or null. Numbers are embedded
as integers; a Date is embedded by the text that its toISOString
method returns. -/
inductive SqlValue where
  | str (s : String)
  | num (n : Int)
  | bool (b : Bool)
  | date (iso : String)
  | null
  deriving DecidableEq

/-- Parameter values, mirroring the source union type SqlParam, which
is SqlValue or an array of SqlValue. -/
inductive SqlParam where
  | scalar (v : SqlValue)
  | arr (vs : List SqlValue)
  deriving DecidableEq

/-- Model of the character escaping done by the escape routine of the
external sqlstring library: the characters NUL, backspace, tab,
newline, carriage return, SUB (0x1a), double quote, single quote and
backslash are each replaced by a two character backslash escape, and
every other character is kept unchanged. -/
def escapeChar (c : Char) : List Char :=
  if c = Char.ofNat 0 then [sqBackslash, Char.ofNat 48]
  else if c = Char.ofNat 8 then [sqBackslash, Char.ofNat 98]
  else if c = Char.ofNat 9 then [sqBackslash, Char.ofNat 116]
  else if c = Char.ofNat 10 then [sqBackslash, Char.ofNat 110]
  else if c = Char.ofNat 13 then [sqBackslash, Char.ofNat 114]
  else if c = Char.ofNat 26 then [sqBackslash, Char.ofNat 90]
  else if c = Char.ofNat 34 then [sqBackslash, Char.ofNat 34]
  else if c = sqQuote then [sqBackslash, sqQuote]
  else if c = sqBackslash then [sqBackslash, sqBackslash]
  else [c]

/-- Model of the escapeString routine of the sqlstring library: the
escaped characters of the input wrapped in single quotes. -/
def escapeString (s : String) : String :=
  String.mk (sqQuote :: (s.data.flatMap escapeChar ++ [sqQuote]))

/-- Replace the first occurrence of the character T by a space. The
JavaScript replace method called with a plain string pattern replaces
only the first occurrence. -/
def replaceFirstT : List Char → List Char
  | [] => []
  | c :: cs => if c = 'T' then ' ' :: cs else c :: replaceFirstT cs

/-- Truncation of an ISO timestamp text to second precision with the
date and time separated by a space: slice(0, 19) followed by replacing
the T separator. -/
def isoTruncate (s : String) : String :=
  String.mk (replaceFirstT (s.data.take 19))

/-- Escape of one scalar, following the branches of the source method
Query.escapeValue on scalar input. A null value becomes the literal
NULL. A Date is truncated to second precision and then quoted. The
remaining cases inline the behaviour of the sqlstring escape routine
for the value types that can reach it from here: strings are quoted
with character escaping, numbers print bare, and booleans print as
true or false. -/
def escapeScalar : SqlValue → String
  | .null => "NULL"
  | .date iso => escapeString (isoTruncate iso)
  | .str s => escapeString s
  | .num n => toString n
  | .bool b => if b then "true" else "false"

/-- Model of the source method Query.escapeValue. An array renders as
the parenthesized comma joined escapes of its elements; the recursive
call made on each element always lands in the scalar branches, which
are escapeScalar. -/
def escapeValue : SqlParam → String
  | .scalar v => escapeScalar v
  | .arr vs => "(" ++ String.intercalate ", " (vs.map escapeScalar) ++ ")"

/-- Scanner for the body of a SQL string literal with backslash
escapes: it consumes characters situated after an opening quote, a
backslash consumes the following character, and an unescaped single
quote closes the literal, returning the remaining input. -/
def scanLiteralBody : List Char → Option (List Char)
  | [] => none
  | c :: cs =>
    if c = sqQuote then some cs
    else if c = sqBackslash then
      match cs with
      | [] => none
      | _ :: cs2 => scanLiteralBody cs2
    else scanLiteralBody cs

/-- A string is one complete SQL string literal when it starts with a
quote and the scan finds the closing quote exactly at the end of the
string. -/
def isSingleSqlLiteral (s : String) : Bool :=
  match s.data with
  | [] => false
  | c :: cs => decide (c = sqQuote) && decide (scanLiteralBody cs = some [])

/-- Safety of an escaper output: either the output text is quote free
(the renderings of NULL, numbers and booleans) or it is one complete
SQL string literal, so that no unescaped quote can terminate the
literal early. -/
def sqlQuoteSafe (s : String) : Bool :=
  s.data.all (fun c => decide (c ≠ sqQuote)) || isSingleSqlLiteral s

/-! Embedding of the query builder classes. -/

/-- Model of the Expression class: an immutable wrapper around a string
of already valid SQL; toString returns the wrapped text unchanged. -/
structure Expression where
  sql : String
  deriving DecidableEq

/-- Arguments that are either a bare string or an Expression, mirroring
the union type used throughout the builder. -/
inductive StrOrExpr where
  | str (s : String)
  | expr (e : Expression)
  deriving DecidableEq

/-- Rendering of a string or Expression argument: an Expression renders
its wrapped SQL text, a string renders itself. -/
def StrOrExpr.render : StrOrExpr → String
  | .str s => s
  | .expr e => e.sql

/-- The closed operator enumeration of the source. -/
inductive Operator where
  | eq
  | gt
  | lt
  | ge
  | le
  | ne
  | IN
  | NOT_IN
  | LIKE
  | NOT_LIKE
  | IS_NULL
  | IS_NOT_NULL
  | BETWEEN
  deriving DecidableEq

/-- SQL text of each operator, as written in the source union type. -/
def Operator.text : Operator → String
  | .eq => "="
  | .gt => ">"
  | .lt => "<"
  | .ge => ">="
  | .le => "<="
  | .ne => "!="
  | .IN => "IN"
  | .NOT_IN => "NOT IN"
  | .LIKE => "LIKE"
  | .NOT_LIKE => "NOT LIKE"
  | .IS_NULL => "IS NULL"
  | .IS_NOT_NULL => "IS NOT NULL"
  | .BETWEEN => "BETWEEN"

/-- The AND or OR joiner stored on a where or having condition. -/
inductive Joiner where
  | AND
  | OR
  deriving DecidableEq

/-- SQL text of a joiner. -/
def Joiner.text : Joiner → String
  | .AND => "AND"
  | .OR => "OR"

/-- Model of the WhereCondition record of the source. -/
structure WhereCondition where
  condition : String
  operator : Joiner
  isGroup : Bool := false
  deriving DecidableEq

/-- Model of the record stored by the having methods: same shape as a
where condition but without the grouping flag. -/
structure HavingCondition where
  condition : String
  operator : Joiner
  deriving DecidableEq

/-- Sort directions of the order by clause. -/
inductive Direction where
  | ASC
  | DESC
  deriving DecidableEq

/-- SQL text of a sort direction. -/
def Direction.text : Direction → String
  | .ASC => "ASC"
  | .DESC => "DESC"

/-- One entry of the order by sequence. -/
structure OrderSpec where
  column : StrOrExpr
  direction : Direction
  deriving DecidableEq

/-- The join kinds of the source JoinType union. -/
inductive JoinType where
  | INNER
  | LEFT
  | RIGHT
  | FULL
  | CROSS
  deriving DecidableEq

/-- SQL text of a join kind. -/
def JoinType.text : JoinType → String
  | .INNER => "INNER"
  | .LEFT => "LEFT"
  | .RIGHT => "RIGHT"
  | .FULL => "FULL"
  | .CROSS => "CROSS"

/-- One entry of the join sequence. -/
structure JoinClause where
  type : JoinType
  table : String
  condition : StrOrExpr
  final : Bool
  deriving DecidableEq

/-- The non recursive private fields of the Query class. The ctes field
lives outside this record because a CTE body may itself be a Query. -/
structure QueryCore where
  sel : List StrOrExpr := []
  fromTable : Option String := none
  whereConds : List WhereCondition := []
  groupBy : List String := []
  having : List HavingCondition := []
  orderBy : List OrderSpec := []
  limit : Option Int := none
  offset : Option Int := none
  final : Bool := false
  settings : List (String × String) := []
  joins : List JoinClause := []
  skipNext : Bool := false
  deriving DecidableEq

/-- Model of the Query class state: the plain fields together with the
ordered CTE list, whose bodies are either raw SQL strings or nested
queries. -/
inductive Query where
  | mk (core : QueryCore) (ctes : List (String × (String ⊕ Query))) : Query

/-- The plain fields of a query. -/
def Query.core : Query → QueryCore
  | .mk c _ => c

/-- The CTE list of a query. -/
def Query.ctes : Query → List (String × (String ⊕ Query))
  | .mk _ c => c

/-- Model of the createQuery helper: a fresh builder with every field
empty. The ClickHouse client argument is an external collaborator used
only by execute and is not part of the modelled state. -/
def createQuery : Query := .mk {} []

/-- Replace the skip flag of a builder, leaving every other field
unchanged. Used to state which methods consult the flag. -/
def Query.setSkip (q : Query) (b : Bool) : Query :=
  match q with
  | .mk core ctes => .mk { core with skipNext := b } ctes

/-- Model of the select method: a no-op while the skip flag is set,
otherwise it replaces the select column list. -/
def Query.select (q : Query) (columns : List StrOrExpr) : Query :=
  match q with
  | .mk core ctes =>
    if core.skipNext then q else .mk { core with sel := columns } ctes

/-- Model of the from method: records the table and the FINAL flag. -/
def Query.from_ (q : Query) (table : String) (final : Bool := false) : Query :=
  match q with
  | .mk core ctes => .mk { core with fromTable := some table, final := final } ctes

/-- Escape of an optional parameter: the source passes a possibly
undefined value to the sqlstring escape routine in the default branch,
and that routine renders undefined as NULL. -/
def escapeOptValue : Option SqlParam → String
  | none => "NULL"
  | some v => escapeValue v

/-- Model of the buildCondition method. It reads no builder state. A
thrown error is modelled as the error branch of Except, carrying the
message of the thrown Error value. -/
def buildCondition (column : StrOrExpr) (operator : Operator)
    (value : Option SqlParam) : Except String String :=
  let columnStr := column.render
  match operator with
  | .IS_NULL => .ok (columnStr ++ " IS NULL")
  | .IS_NOT_NULL => .ok (columnStr ++ " IS NOT NULL")
  | .BETWEEN =>
    match value with
    | some (.arr [v0, v1]) =>
      .ok (columnStr ++ " BETWEEN " ++ escapeScalar v0 ++ " AND " ++ escapeScalar v1)
    | _ => .error "BETWEEN operator requires an array of two values"
  | .IN =>
    match value with
    | some (.arr l) => .ok (columnStr ++ " " ++ Operator.text .IN ++ " " ++ escapeValue (.arr l))
    | _ => .error (Operator.text .IN ++ " operator requires an array value")
  | .NOT_IN =>
    match value with
    | some (.arr l) => .ok (columnStr ++ " " ++ Operator.text .NOT_IN ++ " " ++ escapeValue (.arr l))
    | _ => .error (Operator.text .NOT_IN ++ " operator requires an array value")
  | op => .ok (columnStr ++ " " ++ op.text ++ " " ++ escapeOptValue value)

/-- Model of the where method: a no-op while the skip flag is set,
otherwise it builds the condition and appends it with the AND joiner. -/
def Query.where_ (q : Query) (column : StrOrExpr) (operator : Operator)
    (value : Option SqlParam := none) : Except String Query :=
  match q with
  | .mk core ctes =>
    if core.skipNext then .ok q
    else (buildCondition column operator value).map (fun condition =>
      .mk { core with whereConds := core.whereConds ++ [⟨condition, .AND, false⟩] } ctes)

/-- Model of the andWhere method: appends with the AND joiner and does
not consult the skip flag. -/
def Query.andWhere (q : Query) (column : StrOrExpr) (operator : Operator)
    (value : Option SqlParam := none) : Except String Query :=
  match q with
  | .mk core ctes =>
    (buildCondition column operator value).map (fun condition =>
      .mk { core with whereConds := core.whereConds ++ [⟨condition, .AND, false⟩] } ctes)

/-- Model of the orWhere method: appends with the OR joiner and does
not consult the skip flag. -/
def Query.orWhere (q : Query) (column : StrOrExpr) (operator : Operator)
    (value : Option SqlParam := none) : Except String Query :=
  match q with
  | .mk core ctes =>
    (buildCondition column operator value).map (fun condition =>
      .mk { core with whereConds := core.whereConds ++ [⟨condition, .OR, false⟩] } ctes)

/-- Model of the groupBy method: replaces the group by column list with
the rendered columns. -/
def Query.groupBy (q : Query) (columns : List StrOrExpr) : Query :=
  match q with
  | .mk core ctes => .mk { core with groupBy := columns.map StrOrExpr.render } ctes

/-- Model of the having method: appends with the AND joiner. -/
def Query.having (q : Query) (column : StrOrExpr) (operator : Operator)
    (value : SqlParam) : Except String Query :=
  match q with
  | .mk core ctes =>
    (buildCondition column operator (some value)).map (fun condition =>
      .mk { core with having := core.having ++ [⟨condition, .AND⟩] } ctes)

/-- Model of the andHaving method: appends with the AND joiner. -/
def Query.andHaving (q : Query) (column : StrOrExpr) (operator : Operator)
    (value : SqlParam) : Except String Query :=
  match q with
  | .mk core ctes =>
    (buildCondition column operator (some value)).map (fun condition =>
      .mk { core with having := core.having ++ [⟨condition, .AND⟩] } ctes)

/-- Model of the orHaving method: appends with the OR joiner. -/
def Query.orHaving (q : Query) (column : StrOrExpr) (operator : Operator)
    (value : SqlParam) : Except String Query :=
  match q with
  | .mk core ctes =>
    (buildCondition column operator (some value)).map (fun condition =>
      .mk { core with having := core.having ++ [⟨condition, .OR⟩] } ctes)

/-- Model of the orderBy method: a no-op while the skip flag is set,
otherwise it appends one order entry. -/
def Query.orderBy (q : Query) (column : StrOrExpr)
    (direction : Direction := .ASC) : Query :=
  match q with
  | .mk core ctes =>
    if core.skipNext then q
    else .mk { core with orderBy := core.orderBy ++ [⟨column, direction⟩] } ctes

/-- Model of the limit method: always sets the limit, and sets the
offset only when the optional second argument is present. -/
def Query.limit (q : Query) (l : Int) (offset : Option Int := none) : Query :=
  match q with
  | .mk core ctes =>
    .mk { core with
          limit := some l
          offset := match offset with
            | some o => some o
            | none => core.offset } ctes

/-- Insertion of one key into a string keyed record, with JavaScript
object semantics: an existing key keeps its position and receives the
new value, a new key is appended. -/
def recordSet (m : List (String × String)) (k v : String) : List (String × String) :=
  if m.any (fun kv => kv.1 == k) then
    m.map (fun kv => if kv.1 == k then (k, v) else kv)
  else m ++ [(k, v)]

/-- Model of the settings method: Object.assign of the argument into
the existing settings map, later same-key entries overriding. -/
def Query.settings (q : Query) (s : List (String × String)) : Query :=
  match q with
  | .mk core ctes =>
    .mk { core with settings := s.foldl (fun m kv => recordSet m kv.1 kv.2) core.settings } ctes

/-- Model of the with method: appends one CTE. -/
def Query.with_ (q : Query) (name : String) (body : String ⊕ Query) : Query :=
  match q with
  | .mk core ctes => .mk core (ctes ++ [(name, body)])

/-- Model of the private joinWithType method: appends one join clause. -/
def Query.joinWithType (q : Query) (type : JoinType) (table : String)
    (condition : StrOrExpr) (final : Bool := false) : Query :=
  match q with
  | .mk core ctes =>
    .mk { core with joins := core.joins ++ [⟨type, table, condition, final⟩] } ctes

/-- Model of the join method. -/
def Query.join (q : Query) (table : String) (condition : StrOrExpr)
    (final : Bool := false) : Query :=
  q.joinWithType .INNER table condition final

/-- Model of the leftJoin method. -/
def Query.leftJoin (q : Query) (table : String) (condition : StrOrExpr)
    (final : Bool := false) : Query :=
  q.joinWithType .LEFT table condition final

/-- Model of the rightJoin method. -/
def Query.rightJoin (q : Query) (table : String) (condition : StrOrExpr)
    (final : Bool := false) : Query :=
  q.joinWithType .RIGHT table condition final

/-- Model of the fullJoin method. -/
def Query.fullJoin (q : Query) (table : String) (condition : StrOrExpr)
    (final : Bool := false) : Query :=
  q.joinWithType .FULL table condition final

/-- Model of the crossJoin method: passes an empty condition string. -/
def Query.crossJoin (q : Query) (table : String) (final : Bool := false) : Query :=
  q.joinWithType .CROSS table (.str "") final

/-- Model of the internal _addWhereCondition method: an unconditional
append used by the group builder. -/
def Query._addWhereCondition (q : Query) (c : WhereCondition) : Query :=
  match q with
  | .mk core ctes => .mk { core with whereConds := core.whereConds ++ [c] } ctes

/-- Model of the if method: sets the skip flag to the negation of the
argument. -/
def Query.if_ (q : Query) (condition : Bool) : Query :=
  match q with
  | .mk core ctes => .mk { core with skipNext := !condition } ctes

/-- Model of the endIf method: clears the skip flag unconditionally. -/
def Query.endIf (q : Query) : Query :=
  match q with
  | .mk core ctes => .mk { core with skipNext := false } ctes

/-- Model of the when method: runs the callback on the builder when the
predicate holds, otherwise leaves it alone. -/
def Query.when (q : Query) (condition : Bool) (callback : Query → Query) : Query :=
  if condition then callback q else q

/-- Model of the WhereGroupBuilder class: the parent query, the outer
joiner, and the accumulated internal conditions. -/
structure WhereGroupBuilder where
  query : Query
  groupOperator : Joiner
  conditions : List WhereCondition

/-- Model of the whereGroup method: a group builder whose outer joiner
is AND. -/
def Query.whereGroup (q : Query) : WhereGroupBuilder := ⟨q, .AND, []⟩

/-- Model of the orWhereGroup method: a group builder whose outer
joiner is OR. -/
def Query.orWhereGroup (q : Query) : WhereGroupBuilder := ⟨q, .OR, []⟩

/-- Model of the where method of the group builder: appends an internal
condition with the AND joiner. -/
def WhereGroupBuilder.where_ (g : WhereGroupBuilder) (column : StrOrExpr)
    (operator : Operator) (value : Option SqlParam := none) :
    Except String WhereGroupBuilder :=
  (buildCondition column operator value).map (fun c =>
    { g with conditions := g.conditions ++ [⟨c, .AND, false⟩] })

/-- Model of the andWhere method of the group builder. -/
def WhereGroupBuilder.andWhere (g : WhereGroupBuilder) (column : StrOrExpr)
    (operator : Operator) (value : Option SqlParam := none) :
    Except String WhereGroupBuilder :=
  (buildCondition column operator value).map (fun c =>
    { g with conditions := g.conditions ++ [⟨c, .AND, false⟩] })

/-- Model of the orWhere method of the group builder: appends with the
OR joiner. -/
def WhereGroupBuilder.orWhere (g : WhereGroupBuilder) (column : StrOrExpr)
    (operator : Operator) (value : Option SqlParam := none) :
    Except String WhereGroupBuilder :=
  (buildCondition column operator value).map (fun c =>
    { g with conditions := g.conditions ++ [⟨c, .OR, false⟩] })

/-- Map over a list together with the position of each element,
modelling the two argument callback of the JavaScript map method. -/
def mapWithIndex {α β : Type} (f : Nat → α → β) : Nat → List α → List β
  | _, [] => []
  | i, a :: as => f i a :: mapWithIndex f (i + 1) as

/-- Model of the end method of the group builder: joins the internal
conditions (first one bare, later ones prefixed by their own joiner),
and appends the result to the parent as a single grouped condition
carrying the outer joiner. -/
def WhereGroupBuilder.endGroup (g : WhereGroupBuilder) : Query :=
  let groupCondition := String.intercalate " "
    (mapWithIndex (fun i c =>
      if i = 0 then c.condition else c.operator.text ++ " " ++ c.condition) 0 g.conditions)
  g.query._addWhereCondition ⟨groupCondition, g.groupOperator, true⟩

/-! Rendering. -/

/-- Rendering of one where condition inside the WHERE clause: grouped
conditions are wrapped in parentheses. -/
def renderWhereCondition (w : WhereCondition) : String :=
  if w.isGroup then "(" ++ w.condition ++ ")" else w.condition

/-- Model of the buildWhereConditions method: the condition at position
zero renders bare, every later condition is prefixed by its own joiner,
and the pieces are joined by single spaces. -/
def buildWhereConditions (conditions : List WhereCondition) : String :=
  String.intercalate " "
    (mapWithIndex (fun i w =>
      if i = 0 then renderWhereCondition w
      else w.operator.text ++ " " ++ renderWhereCondition w) 0 conditions)

/-- Rendering of the having conditions, inlined in the source inside
buildQuery: same first versus rest handling as the where clause but
with no grouping. -/
def buildHavingConditions (conditions : List HavingCondition) : String :=
  String.intercalate " "
    (mapWithIndex (fun i h =>
      if i = 0 then h.condition else h.operator.text ++ " " ++ h.condition) 0 conditions)

/-- Rendering of one join clause. The condition argument follows the
JavaScript truthiness test of the source: an empty condition string
suppresses the ON part, while an Expression always renders one. -/
def renderJoin (j : JoinClause) : String :=
  let finalClause := if j.final then " FINAL" else ""
  let conditionStr :=
    match j.condition with
    | .str s => if s = "" then "" else " ON " ++ s
    | .expr e => " ON " ++ e.sql
  j.type.text ++ " JOIN " ++ j.table ++ finalClause ++ conditionStr

/-- Rendering of one order by entry. -/
def renderOrderSpec (o : OrderSpec) : String :=
  o.column.render ++ " " ++ o.direction.text

/-- Model of the buildQuery method as the list of parts that the source
pushes before joining them with single spaces. Clause order is fixed
and empty clauses are omitted; joins render only when a FROM table is
set; the OFFSET part renders only when a LIMIT is set; a CTE whose
body is a nested query renders through the toSQL of that query. -/
def Query.buildQueryParts : Query → List String
  | .mk core ctes =>
    (if ctes.isEmpty then [] else
      ["WITH " ++ String.intercalate ", " (ctes.attach.map (fun x =>
        match x with
        | ⟨(n, Sum.inl s), _⟩ => n ++ " AS (" ++ s ++ ")"
        | ⟨(n, Sum.inr sub), _h⟩ =>
            n ++ " AS (" ++ String.intercalate " " sub.buildQueryParts ++ ")"))])
    ++ (if core.sel.isEmpty then ["SELECT *"]
        else ["SELECT", String.intercalate ", " (core.sel.map StrOrExpr.render)])
    ++ (match core.fromTable with
        | some t =>
          ("FROM " ++ t ++ (if core.final then " FINAL" else ""))
            :: core.joins.map renderJoin
        | none => [])
    ++ (if core.whereConds.isEmpty then []
        else ["WHERE", buildWhereConditions core.whereConds])
    ++ (if core.groupBy.isEmpty then []
        else ["GROUP BY", String.intercalate ", " core.groupBy])
    ++ (if core.having.isEmpty then []
        else ["HAVING", buildHavingConditions core.having])
    ++ (if core.orderBy.isEmpty then []
        else ["ORDER BY", String.intercalate ", " (core.orderBy.map renderOrderSpec)])
    ++ (match core.limit with
        | some l =>
          ("LIMIT " ++ toString l)
            :: (match core.offset with
                | some o => ["OFFSET " ++ toString o]
                | none => [])
        | none => [])
    ++ (if core.settings.isEmpty then []
        else ["SETTINGS " ++ String.intercalate ", "
          (core.settings.map (fun kv => kv.1 ++ " = " ++ kv.2))])
termination_by q => sizeOf q
decreasing_by
  have h1 := List.sizeOf_lt_of_mem _h
  simp at h1 ⊢
  omega

/-- Model of the buildQuery method result: the parts joined by single
spaces. -/
def Query.buildQuery (q : Query) : String :=
  String.intercalate " " q.buildQueryParts

/-- Model of the toSQL method. -/
def Query.toSQL (q : Query) : String :=
  q.buildQuery

/-! Embedding of the cohort retention pipeline of the chart router. -/

/-- The interval granularities accepted by the cohort procedure. -/
inductive TimeInterval where
  | minute
  | hour
  | day
  | week
  | month
  deriving DecidableEq

/-- Model of the ramda range function: the ascending sequence of
integers from the first argument up to but excluding the second,
empty when the second is not larger. -/
def ramdaRange (lo hi : Int) : List Int :=
  (List.range (hi - lo).toNat).map (fun i => lo + Int.ofNat i)

/-- Model of the diffInterval computation of the cohort procedure. The
three difference functions of the external date library are passed as
parameters over an abstract date type: minute, hour and day all
dispatch to the whole day difference, week to the whole week
difference, month to the whole month difference, always called with
the end date first. -/
def diffIntervalOf {α : Type} (differenceInDays differenceInWeeks differenceInMonths :
    α → α → Int) (interval : TimeInterval) (startDate endDate : α) : Int :=
  match interval with
  | .minute => differenceInDays endDate startDate
  | .hour => differenceInDays endDate startDate
  | .day => differenceInDays endDate startDate
  | .week => differenceInWeeks endDate startDate
  | .month => differenceInMonths endDate startDate

/-- Model of the countCriteria selection: the comparison text is
greater or equal for the on_or_after criteria and equality for any
other criteria value. -/
def countCriteria (criteria : String) : String :=
  if criteria = "on_or_after" then ">=" else "="

/-- Model of the per index user list expressions of the usersSelect
fragment, before joining. -/
def usersSelectList (criteria : String) (diffInterval : Int) : List String :=
  (ramdaRange 0 (diffInterval + 1)).map (fun index =>
    "groupUniqArrayIf(profile_id, x_after_cohort " ++ countCriteria criteria
      ++ " " ++ toString index ++ ") AS interval_" ++ toString index ++ "_users")

/-- Model of the usersSelect fragment: the expressions joined by comma
and newline. -/
def usersSelect (criteria : String) (diffInterval : Int) : String :=
  String.intercalate ",\n" (usersSelectList criteria diffInterval)

/-- Model of the per index user count columns of the countsSelect
fragment, before joining. -/
def countsSelectList (diffInterval : Int) : List String :=
  (ramdaRange 0 (diffInterval + 1)).map (fun index =>
    "length(interval_" ++ toString index ++ "_users) AS interval_"
      ++ toString index ++ "_user_count")

/-- Model of the countsSelect fragment: the columns joined by comma and
newline. -/
def countsSelect (diffInterval : Int) : String :=
  String.intercalate ",\n" (countsSelectList diffInterval)

/-- Modelled from the spec: the round helper imported from the common
package is not among the source files; the spec states that rounding
is half up to the stated number of decimals throughout the cohort
aggregation. -/
def roundTo (x : ℚ) (decimals : ℕ) : ℚ :=
  ((⌊x * 10 ^ decimals + 1 / 2⌋ : ℤ) : ℚ) / 10 ^ decimals

/-- One raw row returned by the cohort statement: the cohort interval
label, the first event population size, and the per index user counts
read through dynamically named columns; a missing column reads as
none. Numeric values are embedded as rationals. -/
structure CohortRow where
  cohort_interval : String
  total_first_event_count : ℚ
  counts : Int → Option ℚ

/-- One output row of processCohortData. -/
structure CohortProcessedRow where
  cohort_interval : String
  sum : ℚ
  values : List ℚ
  percentages : List ℚ

/-- Model of the per row mapping of processCohortData: values reads the
per index count columns with zero as the default, and percentages
divides by the cohort size when it is positive. -/
def processCohortRow (diffInterval : Int) (row : CohortRow) : CohortProcessedRow :=
  let sum := row.total_first_event_count
  let values := (ramdaRange 0 (diffInterval + 1)).map (fun index =>
    (row.counts index).getD 0)
  { cohort_interval := row.cohort_interval
    sum := sum
    values := values
    percentages := values.map (fun value =>
      if sum > 0 then roundTo (value / sum * 100) 2 else 0) }

/-- Model of one forEach pass over the value list of one row: at each
position holding a non zero value, the accumulator entry receives the
row size into its first component and the value times the row size
into its second component; zero valued positions are skipped. Entries
of the accumulator beyond the length of the value list stay untouched
(in the source both lists always have equal length). -/
def accumWeighted (rowSum : ℚ) : List (ℚ × ℚ) → List ℚ → List (ℚ × ℚ)
  | acc, [] => acc
  | [], _ => []
  | a :: acc, v :: vs =>
    (if v ≠ 0 then (a.1 + rowSum, a.2 + v * rowSum) else a) :: accumWeighted rowSum acc vs

/-- One step of the aggregation loop of processCohortData over one
processed row: the total size, the value accumulator and the
percentage accumulator are updated in source order. -/
def cohortFoldStep (st : ℚ × List (ℚ × ℚ) × List (ℚ × ℚ))
    (row : CohortProcessedRow) : ℚ × List (ℚ × ℚ) × List (ℚ × ℚ) :=
  (st.1 + row.sum,
   accumWeighted row.sum st.2.1 row.values,
   accumWeighted row.sum st.2.2 row.percentages)

/-- Model of processCohortData: empty input returns the empty list;
otherwise the rows are processed, the zero excluding weighted
aggregation runs over them, and a synthetic weighted average row is
placed in front of the processed rows. -/
def processCohortData (data : List CohortRow) (diffInterval : Int) :
    List CohortProcessedRow :=
  match data with
  | [] => []
  | _ :: _ =>
    let processed := data.map (processCohortRow diffInterval)
    let init : List (ℚ × ℚ) := (ramdaRange 0 (diffInterval + 1)).map (fun _ => (0, 0))
    let agg := processed.foldl cohortFoldStep (0, init, init)
    let averageRow : CohortProcessedRow :=
      { cohort_interval := "Weighted Average"
        sum := roundTo (agg.1 / (processed.length : ℚ)) 0
        values := agg.2.1.map (fun p => if p.1 > 0 then roundTo (p.2 / p.1) 0 else 0)
        percentages := agg.2.2.map (fun p => if p.1 > 0 then roundTo (p.2 / p.1) 2 else 0) }
    averageRow :: processed

/-- Total size of the cohorts that contribute at one index: the sum of
the sums of exactly those processed rows whose value at that index is
non zero. -/
def contribSum (rows : List CohortProcessedRow) (i : Nat) : Rat :=
  ((rows.filter (fun r => decide (r.values.getD i 0 ≠ 0))).map (fun r => r.sum)).sum

/-- Weighted total at one index: the sum of value times cohort size
over exactly those processed rows whose value at that index is non
zero. -/
def contribWeightedSum (rows : List CohortProcessedRow) (i : Nat) : Rat :=
  ((rows.filter (fun r => decide (r.values.getD i 0 ≠ 0))).map
    (fun r => r.values.getD i 0 * r.sum)).sum

/-- The concrete cohort pair of the specification example: sizes ten
and twenty, values five then zero and zero then ten. -/
def c8ExampleRows : List CohortRow :=
  [⟨"2024-01-01", 10, fun i => if i = 0 then some 5 else if i = 1 then some 0 else none⟩,
   ⟨"2024-01-02", 20, fun i => if i = 0 then some 0 else if i = 1 then some 10 else none⟩]

/-! Supporting lemmas about the escaper. -/

theorem escapeChar_spec (c : Char) :
    (∃ x, escapeChar c = [sqBackslash, x]) ∨
      (escapeChar c = [c] ∧ c ≠ sqQuote ∧ c ≠ sqBackslash) := by
  unfold escapeChar
  repeat' split
  all_goals try exact Or.inl ⟨_, rfl⟩
  rename_i h1 h2 h3 h4 h5 h6 h7 h8 h9
  exact Or.inr ⟨rfl, h8, h9⟩

theorem scanLiteralBody_cons_quote (cs : List Char) :
    scanLiteralBody (sqQuote :: cs) = some cs := by
  rw [scanLiteralBody.eq_def]
  exact if_pos rfl

theorem scanLiteralBody_cons_bsl (x : Char) (cs : List Char) :
    scanLiteralBody (sqBackslash :: x :: cs) = scanLiteralBody cs := by
  rw [scanLiteralBody.eq_def]
  exact (if_neg (by decide)).trans (if_pos rfl)

theorem scanLiteralBody_cons_other (c : Char) (hq : c ≠ sqQuote)
    (hb : c ≠ sqBackslash) (cs : List Char) :
    scanLiteralBody (c :: cs) = scanLiteralBody cs := by
  rw [scanLiteralBody.eq_def]
  exact (if_neg hq).trans (if_neg hb)

theorem scanLiteralBody_escaped (cs : List Char) :
    ∀ rest, scanLiteralBody (cs.flatMap escapeChar ++ rest) = scanLiteralBody rest := by
  induction cs with
  | nil => intro rest; simp
  | cons c cs ih =>
    intro rest
    rcases escapeChar_spec c with ⟨x, hx⟩ | ⟨hc, hq, hb⟩
    · rw [List.flatMap_cons, hx, List.append_assoc]
      simp only [List.cons_append, List.nil_append]
      rw [scanLiteralBody_cons_bsl]
      exact ih rest
    · rw [List.flatMap_cons, hc, List.append_assoc]
      simp only [List.cons_append, List.nil_append]
      rw [scanLiteralBody_cons_other c hq hb]
      exact ih rest

theorem isSingleSqlLiteral_escapeString (s : String) :
    isSingleSqlLiteral (escapeString s) = true := by
  have h : scanLiteralBody (s.data.flatMap escapeChar ++ [sqQuote]) = some [] := by
    rw [scanLiteralBody_escaped]
    rw [scanLiteralBody_cons_quote]
  simp [isSingleSqlLiteral, escapeString, String.mk, h]

theorem digitChar_big (n : Nat) (h : 16 ≤ n) : Nat.digitChar n = '*' := by
  unfold Nat.digitChar
  repeat rw [if_neg (by omega)]

theorem digitChar_ne_quote (n : Nat) : Nat.digitChar n ≠ sqQuote := by
  by_cases h : n < 16
  · interval_cases n <;> decide
  · rw [digitChar_big n (by omega)]
    decide

theorem toDigitsCore_ne_quote :
    ∀ (f n : Nat) (ds : List Char), (∀ c ∈ ds, c ≠ sqQuote) →
      ∀ c ∈ Nat.toDigitsCore 10 f n ds, c ≠ sqQuote := by
  intro f
  induction f with
  | zero => intro n ds h; simpa [Nat.toDigitsCore] using h
  | succ f ih =>
    intro n ds h
    simp only [Nat.toDigitsCore]
    split
    · intro c hc
      rcases List.mem_cons.mp hc with rfl | hc2
      · exact digitChar_ne_quote _
      · exact h c hc2
    · apply ih
      intro c hc
      rcases List.mem_cons.mp hc with rfl | hc2
      · exact digitChar_ne_quote _
      · exact h c hc2

theorem natRepr_ne_quote (n : Nat) : ∀ c ∈ (Nat.repr n).data, c ≠ sqQuote := by
  intro c hc
  have : (Nat.repr n).data = Nat.toDigits 10 n := rfl
  rw [this] at hc
  exact toDigitsCore_ne_quote (n + 1) n [] (by intro c hc; cases hc) c hc

theorem intRepr_ne_quote (n : Int) : ∀ c ∈ (toString n).data, c ≠ sqQuote := by
  intro c hc
  have ht : toString n = Int.repr n := rfl
  rw [ht] at hc
  cases n with
  | ofNat m => exact natRepr_ne_quote m c hc
  | negSucc m =>
    simp only [Int.repr, String.data_append] at hc
    rcases List.mem_append.mp hc with h1 | h2
    · have : c = Char.ofNat 45 := by
        simpa using h1
      rw [this]; decide
    · exact natRepr_ne_quote _ c h2

theorem escapeScalar_safe (v : SqlValue) : sqlQuoteSafe (escapeScalar v) = true := by
  cases v with
  | str s =>
    simp [sqlQuoteSafe, escapeScalar, isSingleSqlLiteral_escapeString]
  | date iso =>
    simp [sqlQuoteSafe, escapeScalar, isSingleSqlLiteral_escapeString]
  | null => decide
  | bool b => cases b <;> decide
  | num n =>
    simp only [sqlQuoteSafe, escapeScalar, Bool.or_eq_true, List.all_eq_true]
    left
    intro c hc
    simpa using intRepr_ne_quote n c hc

/-- Claim C1: escapeValue sends null to the literal NULL, an array to the
parenthesized comma joined recursive escapes of its elements, and a
Date to its ISO text truncated to second precision with the T replaced
by a space and then quoted; a quoted output is always one complete SQL
string literal, every scalar escape is safe against an unescaped
single quote terminating the literal early, and the concrete string
containing an O Brien style apostrophe renders as a single SQL string
literal rather than two. -/
theorem claim_c1_escapeValue :
    escapeValue (.scalar .null) = "NULL"
    ∧ (∀ vs : List SqlValue, escapeValue (.arr vs) =
        "(" ++ String.intercalate ", "
          (vs.map (fun v => escapeValue (.scalar v))) ++ ")")
    ∧ (∀ iso : String, escapeValue (.scalar (.date iso)) = escapeString (isoTruncate iso)
        ∧ isSingleSqlLiteral (escapeValue (.scalar (.date iso))) = true)
    ∧ (∀ s : String, isSingleSqlLiteral (escapeValue (.scalar (.str s))) = true)
    ∧ (∀ v : SqlValue, sqlQuoteSafe (escapeScalar v) = true)
    ∧ sqQuote ∈ ("O" ++ String.singleton sqQuote ++ "Brien").data
    ∧ isSingleSqlLiteral (escapeValue (.scalar (.str
        ("O" ++ String.singleton sqQuote ++ "Brien")))) = true := by
  refine ⟨rfl, fun vs => rfl, fun iso => ⟨rfl, ?_⟩, fun s => ?_, escapeScalar_safe, ?_, ?_⟩
  · exact isSingleSqlLiteral_escapeString (isoTruncate iso)
  · exact isSingleSqlLiteral_escapeString s
  · decide
  · exact isSingleSqlLiteral_escapeString ("O" ++ String.singleton sqQuote ++ "Brien")

/-- Claim C9: the cohort aggregator applied to an empty row sequence returns
an empty result, with no per cohort rows and no synthetic weighted
average row. -/
theorem claim_c9_empty_input : ∀ d : Int, processCohortData [] d = [] :=
  fun _ => rfl

/-- Claim C2: buildCondition with BETWEEN succeeds exactly on a two element
array value and otherwise raises the invalid operator usage error (in
particular one and three element arrays raise rather than truncate);
IN and NOT IN raise unless the value is an array; the check is a pure
function of the arguments, raised at condition build time with no
network involved, and a failing call leaves the builder unchanged in
the sense that the where methods return the error and produce no
updated builder. -/
theorem claim_c2_buildCondition :
    (∀ (col : StrOrExpr) (v0 v1 : SqlValue),
        buildCondition col .BETWEEN (some (.arr [v0, v1]))
          = .ok (col.render ++ " BETWEEN " ++ escapeScalar v0 ++ " AND " ++ escapeScalar v1))
    ∧ (∀ (col : StrOrExpr) (v : Option SqlParam),
        (∀ v0 v1, v ≠ some (.arr [v0, v1])) →
          buildCondition col .BETWEEN v
            = .error "BETWEEN operator requires an array of two values")
    ∧ (∀ (col : StrOrExpr) (v0 : SqlValue),
        buildCondition col .BETWEEN (some (.arr [v0]))
          = .error "BETWEEN operator requires an array of two values")
    ∧ (∀ (col : StrOrExpr) (v0 v1 v2 : SqlValue),
        buildCondition col .BETWEEN (some (.arr [v0, v1, v2]))
          = .error "BETWEEN operator requires an array of two values")
    ∧ (∀ (col : StrOrExpr) (v : Option SqlParam),
        (∀ l, v ≠ some (.arr l)) →
          buildCondition col .IN v = .error "IN operator requires an array value"
            ∧ buildCondition col .NOT_IN v = .error "NOT IN operator requires an array value")
    ∧ (∀ (col : StrOrExpr) (l : List SqlValue),
        buildCondition col .IN (some (.arr l))
            = .ok (col.render ++ " " ++ "IN" ++ " " ++ escapeValue (.arr l))
          ∧ buildCondition col .NOT_IN (some (.arr l))
            = .ok (col.render ++ " " ++ "NOT IN" ++ " " ++ escapeValue (.arr l)))
    ∧ (∀ (q : Query) (col : StrOrExpr) (op : Operator) (v : Option SqlParam) (e : String),
        buildCondition col op v = .error e →
          q.andWhere col op v = .error e
            ∧ q.orWhere col op v = .error e
            ∧ ((Query.core q).skipNext = false → q.where_ col op v = .error e)) := by
  refine ⟨fun col v0 v1 => rfl, ?_, fun col v0 => rfl, fun col v0 v1 v2 => rfl,
    ?_, fun col l => ⟨rfl, rfl⟩, ?_⟩
  · intro col v h
    rcases v with _ | p
    · rfl
    rcases p with w | l
    · rfl
    rcases l with _ | ⟨a, _ | ⟨b, _ | ⟨c, rest⟩⟩⟩
    · rfl
    · rfl
    · exact absurd rfl (h a b)
    · rfl
  · intro col v h
    rcases v with _ | p
    · exact ⟨rfl, rfl⟩
    rcases p with w | l
    · exact ⟨rfl, rfl⟩
    · exact absurd rfl (h l)
  · intro q col op v e h
    obtain ⟨core, ctes⟩ := q
    refine ⟨?_, ?_, ?_⟩
    · simp [Query.andWhere, h, Except.map]
    · simp [Query.orWhere, h, Except.map]
    · intro hskip
      simp [Query.core] at hskip
      simp [Query.where_, hskip, h, Except.map]

/-- Claim C2 witness: the invalid operator usage checks applied at concrete
inputs, including a three element BETWEEN array. -/
theorem claim_c2_witness :
    buildCondition (.str "a") .BETWEEN
        (some (.arr [.num 1, .num 2, .num 3]))
      = .error "BETWEEN operator requires an array of two values"
    ∧ buildCondition (.str "a") .IN (some (.scalar (.num 1)))
      = .error "IN operator requires an array value" := by
  constructor
  · exact claim_c2_buildCondition.2.2.2.1 (.str "a") (.num 1) (.num 2) (.num 3)
  · exact (claim_c2_buildCondition.2.2.2.2.1 (.str "a") (some (.scalar (.num 1)))
      (by intro l h; simp at h)).1

/-- Claim C4 counterexample: on a builder whose skip flag is set (after a
call to if with a false argument), where is a no-op while andWhere
still appends the condition, so the two methods do not have identical
effects on every builder state. -/
theorem claim_c4_counterexample :
    (createQuery.if_ false).where_ (.str "a") .eq (some (.scalar (.num 1)))
        = .ok (createQuery.if_ false)
    ∧ (createQuery.if_ false).andWhere (.str "a") .eq (some (.scalar (.num 1)))
        = .ok ((createQuery.if_ false)._addWhereCondition ⟨"a = 1", .AND, false⟩)
    ∧ (createQuery.if_ false).where_ (.str "a") .eq (some (.scalar (.num 1)))
        ≠ (createQuery.if_ false).andWhere (.str "a") .eq (some (.scalar (.num 1))) := by
  have h1 : (createQuery.if_ false).where_ (.str "a") .eq (some (.scalar (.num 1)))
      = .ok (createQuery.if_ false) := rfl
  have h2 : (createQuery.if_ false).andWhere (.str "a") .eq (some (.scalar (.num 1)))
      = .ok ((createQuery.if_ false)._addWhereCondition ⟨"a = 1", .AND, false⟩) := rfl
  refine ⟨h1, h2, ?_⟩
  intro h
  rw [h1, h2] at h
  have h3 := Except.ok.inj h
  have h4 := congrArg (fun q => (Query.core q).whereConds) h3
  simp [Query.core, Query._addWhereCondition, Query.if_, createQuery] at h4

/-- Claim C4 amended: on every builder state whose skip flag is clear,
calling where and calling andWhere have identical effects, appending
the same condition with the AND joiner to the same ordered sequence. -/
theorem claim_c4_amended (q : Query) (column : StrOrExpr) (operator : Operator)
    (value : Option SqlParam) (h : (Query.core q).skipNext = false) :
    q.where_ column operator value = q.andWhere column operator value := by
  obtain ⟨core, ctes⟩ := q
  simp [Query.core] at h
  simp [Query.where_, Query.andWhere, h]

/-- Claim C4 witness: the amended statement applied to a fresh builder. -/
theorem claim_c4_witness :
    createQuery.where_ (.str "a") .eq (some (.scalar (.num 1)))
      = createQuery.andWhere (.str "a") .eq (some (.scalar (.num 1))) :=
  claim_c4_amended createQuery (.str "a") .eq (some (.scalar (.num 1))) rfl

/-- Claim C10: calling limit without an offset argument only replaces the
limit field, leaving every other field, in particular a previously set
offset, unchanged; whenever a limit and an offset are both set the
rendering contains the OFFSET part, so the chain limit(5, 3) followed
by limit(10) still renders OFFSET 3. -/
theorem claim_c10_limit :
    (∀ (q : Query) (n : Int),
        q.limit n none = Query.mk { Query.core q with limit := some n } (Query.ctes q))
    ∧ (∀ (q : Query) (n : Int),
        (Query.core (q.limit n none)).offset = (Query.core q).offset)
    ∧ (∀ (q : Query) (l o : Int),
        (Query.core q).limit = some l → (Query.core q).offset = some o →
          ("OFFSET " ++ toString o) ∈ q.buildQueryParts)
    ∧ ((createQuery.limit 5 (some 3)).limit 10 none).toSQL
        = "SELECT * LIMIT 10 OFFSET 3" := by
  refine ⟨?_, ?_, ?_, ?_⟩
  · intro q n
    obtain ⟨core, ctes⟩ := q
    rfl
  · intro q n
    obtain ⟨core, ctes⟩ := q
    rfl
  · intro q l o h1 h2
    obtain ⟨core, ctes⟩ := q
    simp [Query.core] at h1 h2
    simp [Query.buildQueryParts, h1, h2, List.mem_append]
  · simp [Query.toSQL, Query.buildQuery, Query.buildQueryParts, createQuery, Query.limit]
    rfl

/-- Claim C10 witness: the rendering fact applied to a builder whose offset
was set by an earlier limit call with an explicit offset. -/
theorem claim_c10_witness :
    ("OFFSET " ++ toString (3 : Int)) ∈ (createQuery.limit 5 (some 3)).buildQueryParts :=
  claim_c10_limit.2.2.1 (createQuery.limit 5 (some 3)) 5 3 rfl rfl

/-- Claim C3: while the skip flag is set the select, where and orderBy
methods are no-ops leaving the builder unchanged; every other clause
method commutes with setting the flag, that is, it performs the same
state change whether or not the flag is set; endIf clears the flag
unconditionally and nothing else; and the chain if(false), select x,
endIf, select y renders a query selecting y. -/
theorem claim_c3_skip_flag :
    (∀ (q : Query) (cols : List StrOrExpr), (q.setSkip true).select cols = q.setSkip true)
    ∧ (∀ (q : Query) (c : StrOrExpr) (o : Operator) (v : Option SqlParam),
        (q.setSkip true).where_ c o v = .ok (q.setSkip true))
    ∧ (∀ (q : Query) (c : StrOrExpr) (d : Direction),
        (q.setSkip true).orderBy c d = q.setSkip true)
    ∧ (∀ (q : Query) (b : Bool) (t : String) (f : Bool),
        (q.setSkip b).from_ t f = (q.from_ t f).setSkip b)
    ∧ (∀ (q : Query) (b : Bool) (c : StrOrExpr) (o : Operator) (v : Option SqlParam),
        (q.setSkip b).andWhere c o v = (q.andWhere c o v).map (fun r => r.setSkip b))
    ∧ (∀ (q : Query) (b : Bool) (c : StrOrExpr) (o : Operator) (v : Option SqlParam),
        (q.setSkip b).orWhere c o v = (q.orWhere c o v).map (fun r => r.setSkip b))
    ∧ (∀ (q : Query) (b : Bool) (cols : List StrOrExpr),
        (q.setSkip b).groupBy cols = (q.groupBy cols).setSkip b)
    ∧ (∀ (q : Query) (b : Bool) (c : StrOrExpr) (o : Operator) (v : SqlParam),
        (q.setSkip b).having c o v = (q.having c o v).map (fun r => r.setSkip b)
          ∧ (q.setSkip b).andHaving c o v = (q.andHaving c o v).map (fun r => r.setSkip b)
          ∧ (q.setSkip b).orHaving c o v = (q.orHaving c o v).map (fun r => r.setSkip b))
    ∧ (∀ (q : Query) (b : Bool) (l : Int) (off : Option Int),
        (q.setSkip b).limit l off = (q.limit l off).setSkip b)
    ∧ (∀ (q : Query) (b : Bool) (s : List (String × String)),
        (q.setSkip b).settings s = (q.settings s).setSkip b)
    ∧ (∀ (q : Query) (b : Bool) (n : String) (body : String ⊕ Query),
        (q.setSkip b).with_ n body = (q.with_ n body).setSkip b)
    ∧ (∀ (q : Query) (b : Bool) (ty : JoinType) (t : String) (c : StrOrExpr) (f : Bool),
        (q.setSkip b).joinWithType ty t c f = (q.joinWithType ty t c f).setSkip b)
    ∧ (∀ (q : Query) (b : Bool) (t : String) (c : StrOrExpr) (f : Bool),
        (q.setSkip b).join t c f = (q.join t c f).setSkip b
          ∧ (q.setSkip b).leftJoin t c f = (q.leftJoin t c f).setSkip b
          ∧ (q.setSkip b).rightJoin t c f = (q.rightJoin t c f).setSkip b
          ∧ (q.setSkip b).fullJoin t c f = (q.fullJoin t c f).setSkip b)
    ∧ (∀ (q : Query) (b : Bool) (t : String) (f : Bool),
        (q.setSkip b).crossJoin t f = (q.crossJoin t f).setSkip b)
    ∧ (∀ q : Query, q.endIf = q.setSkip false)
    ∧ ((((createQuery.if_ false).select [.str "x"]).endIf).select [.str "y"]).toSQL
        = "SELECT y" := by
  refine ⟨?_, ?_, ?_, ?_, ?_, ?_, ?_, ?_, ?_, ?_, ?_, ?_, ?_, ?_, ?_, ?_⟩
  · intro q cols
    obtain ⟨core, ctes⟩ := q
    simp [Query.setSkip, Query.select]
  · intro q c o v
    obtain ⟨core, ctes⟩ := q
    simp [Query.setSkip, Query.where_]
  · intro q c d
    obtain ⟨core, ctes⟩ := q
    simp [Query.setSkip, Query.orderBy]
  · intro q b t f
    obtain ⟨core, ctes⟩ := q
    rfl
  · intro q b c o v
    obtain ⟨core, ctes⟩ := q
    cases h : buildCondition c o v <;>
      simp [Query.setSkip, Query.andWhere, h, Except.map]
  · intro q b c o v
    obtain ⟨core, ctes⟩ := q
    cases h : buildCondition c o v <;>
      simp [Query.setSkip, Query.orWhere, h, Except.map]
  · intro q b cols
    obtain ⟨core, ctes⟩ := q
    rfl
  · intro q b c o v
    obtain ⟨core, ctes⟩ := q
    refine ⟨?_, ?_, ?_⟩ <;>
      cases h : buildCondition c o (some v) <;>
        simp [Query.setSkip, Query.having, Query.andHaving, Query.orHaving, h, Except.map]
  · intro q b l off
    obtain ⟨core, ctes⟩ := q
    rfl
  · intro q b s
    obtain ⟨core, ctes⟩ := q
    rfl
  · intro q b n body
    obtain ⟨core, ctes⟩ := q
    rfl
  · intro q b ty t c f
    obtain ⟨core, ctes⟩ := q
    rfl
  · intro q b t c f
    obtain ⟨core, ctes⟩ := q
    exact ⟨rfl, rfl, rfl, rfl⟩
  · intro q b t f
    obtain ⟨core, ctes⟩ := q
    rfl
  · intro q
    obtain ⟨core, ctes⟩ := q
    rfl
  · simp [Query.toSQL, Query.buildQuery, Query.buildQueryParts, createQuery,
      Query.if_, Query.endIf, Query.select]
    rfl

/-- Mapping with indices that start above zero never sees index zero,
so a callback that only distinguishes zero from the rest behaves as a
plain map. -/
theorem mapWithIndex_shift {α β : Type} (g : α → β) (f : Nat → α → β)
    (hf : ∀ (i : Nat) (a : α), f (i + 1) a = g a) :
    ∀ (n : Nat) (l : List α), mapWithIndex f (n + 1) l = l.map g := by
  intro n l
  induction l generalizing n with
  | nil => rfl
  | cons a as ih =>
    simp only [mapWithIndex, List.map_cons, hf n a]
    exact congrArg _ (ih (n + 1))

/-- Claim C5: rendering a non empty where sequence emits the first condition
without its joiner and prefixes every later condition with its own
joiner, in sequence order; the chain where a = 1, orWhere b = 2
renders the clause WHERE a = 1 OR b = 2. -/
theorem claim_c5_whereRendering :
    (∀ (c : WhereCondition) (rest : List WhereCondition),
        buildWhereConditions (c :: rest) =
          String.intercalate " " (renderWhereCondition c ::
            rest.map (fun w => w.operator.text ++ " " ++ renderWhereCondition w)))
    ∧ (Except.map Query.toSQL
        (Except.bind (createQuery.where_ (.str "a") .eq (some (.scalar (.num 1))))
          (fun q => q.orWhere (.str "b") .eq (some (.scalar (.num 2)))))
        = .ok "SELECT * WHERE a = 1 OR b = 2") := by
  constructor
  · intro c rest
    show String.intercalate " " (mapWithIndex _ 0 (c :: rest)) = _
    rw [mapWithIndex]
    rw [mapWithIndex_shift (fun w => w.operator.text ++ " " ++ renderWhereCondition w)]
    · simp
    · intro i a
      rfl
  · simp [createQuery, Query.where_, Query.orWhere, buildCondition, Except.bind, Except.map,
      Query.toSQL, Query.buildQuery, Query.buildQueryParts, buildWhereConditions,
      mapWithIndex, renderWhereCondition]
    rfl

/-- Claim C6: a where group builder carries the outer joiner AND when made by
whereGroup and OR when made by orWhereGroup; its end call appends to
the parent exactly one grouped condition whose text joins the internal
conditions in order, first bare and the rest prefixed by their own
joiner; a grouped condition renders parenthesized; and after a prior
condition the example group renders WHERE c = 3 AND (a = 1 OR b = 2). -/
theorem claim_c6_whereGroup :
    (∀ q : Query, q.whereGroup = ⟨q, .AND, []⟩ ∧ q.orWhereGroup = ⟨q, .OR, []⟩)
    ∧ (∀ (q : Query) (j : Joiner) (c : WhereCondition) (rest : List WhereCondition),
        WhereGroupBuilder.endGroup ⟨q, j, c :: rest⟩ =
          q._addWhereCondition
            ⟨String.intercalate " " (c.condition ::
                rest.map (fun w => w.operator.text ++ " " ++ w.condition)), j, true⟩)
    ∧ (∀ (q : Query) (c : WhereCondition),
        (Query.core (q._addWhereCondition c)).whereConds
          = (Query.core q).whereConds ++ [c])
    ∧ (∀ (s : String) (j : Joiner), renderWhereCondition ⟨s, j, true⟩ = "(" ++ s ++ ")")
    ∧ (Except.map Query.toSQL
        (Except.bind (createQuery.where_ (.str "c") .eq (some (.scalar (.num 3))))
          (fun q => Except.map WhereGroupBuilder.endGroup
            (Except.bind (q.whereGroup.where_ (.str "a") .eq (some (.scalar (.num 1))))
              (fun g => g.orWhere (.str "b") .eq (some (.scalar (.num 2)))))))
        = .ok "SELECT * WHERE c = 3 AND (a = 1 OR b = 2)") := by
  refine ⟨fun q => ⟨rfl, rfl⟩, ?_, ?_, fun s j => rfl, ?_⟩
  · intro q j c rest
    show q._addWhereCondition
        ⟨String.intercalate " " (mapWithIndex _ 0 (c :: rest)), j, true⟩ = _
    rw [mapWithIndex]
    rw [mapWithIndex_shift (fun w => w.operator.text ++ " " ++ w.condition)]
    · simp
    · intro i a
      rfl
  · intro q c
    obtain ⟨core, ctes⟩ := q
    rfl
  · simp [createQuery, Query.where_, Query.orWhere, Query.whereGroup,
      WhereGroupBuilder.where_, WhereGroupBuilder.orWhere, WhereGroupBuilder.endGroup,
      Query._addWhereCondition, buildCondition, Except.bind, Except.map,
      Query.toSQL, Query.buildQuery, Query.buildQueryParts, buildWhereConditions,
      mapWithIndex, renderWhereCondition]
    rfl

/-- Element access into the model of the ramda range function. -/
theorem ramdaRange_getElem (lo hi : Int) (i : Nat)
    (h : i < (ramdaRange lo hi).length) :
    (ramdaRange lo hi)[i] = lo + i := by
  unfold ramdaRange at h ⊢
  rw [List.getElem_map, List.getElem_range]
  rfl

/-- Length of the model of the ramda range function. -/
theorem ramdaRange_length (lo hi : Int) :
    (ramdaRange lo hi).length = (hi - lo).toNat := by
  unfold ramdaRange
  rw [List.length_map, List.length_range]

/-- Claim C7: the cohort generator maps minute, hour and day granularity to
the whole day difference, week to the whole week difference and month
to the whole month difference when computing the interval count (the
difference functions of the external date library are abstract
parameters, always applied to the end date first); for a non negative
interval count d it synthesizes exactly d plus one user list
expressions and d plus one user count columns, indexed zero through d;
and the lag comparison inside the user list expression at index i uses
the text of a greater or equal comparison exactly when the criteria is
on_or_after and an equality comparison otherwise. -/
theorem claim_c7_cohort :
    (∀ (α : Type) (fd fw fm : α → α → Int) (s e : α),
        diffIntervalOf fd fw fm .minute s e = fd e s
          ∧ diffIntervalOf fd fw fm .hour s e = fd e s
          ∧ diffIntervalOf fd fw fm .day s e = fd e s
          ∧ diffIntervalOf fd fw fm .week s e = fw e s
          ∧ diffIntervalOf fd fw fm .month s e = fm e s)
    ∧ (∀ (crit : String) (d : Int), 0 ≤ d →
        (usersSelectList crit d).length = d.toNat + 1
          ∧ (countsSelectList d).length = d.toNat + 1)
    ∧ (∀ (crit : String) (d : Int) (i : Nat) (hi : i < (usersSelectList crit d).length),
        (usersSelectList crit d).get ⟨i, hi⟩ =
          "groupUniqArrayIf(profile_id, x_after_cohort "
            ++ (if crit = "on_or_after" then ">=" else "=")
            ++ " " ++ toString (i : Int) ++ ") AS interval_"
            ++ toString (i : Int) ++ "_users")
    ∧ (∀ (d : Int) (i : Nat) (hi : i < (countsSelectList d).length),
        (countsSelectList d).get ⟨i, hi⟩ =
          "length(interval_" ++ toString (i : Int) ++ "_users) AS interval_"
            ++ toString (i : Int) ++ "_user_count") := by
  refine ⟨fun α fd fw fm s e => ⟨rfl, rfl, rfl, rfl, rfl⟩, ?_, ?_, ?_⟩
  · intro crit d hd
    refine ⟨?_, ?_⟩ <;>
      · simp only [usersSelectList, countsSelectList, List.length_map, ramdaRange_length]
        omega
  · intro crit d i hi
    rw [List.get_eq_getElem]
    have h2 : i < (ramdaRange 0 (d + 1)).length := by
      simpa only [usersSelectList, List.length_map] using hi
    show ((ramdaRange 0 (d + 1)).map (fun index =>
      "groupUniqArrayIf(profile_id, x_after_cohort " ++ countCriteria crit
        ++ " " ++ toString index ++ ") AS interval_" ++ toString index ++ "_users"))[i] = _
    rw [List.getElem_map, ramdaRange_getElem 0 (d + 1) i h2, zero_add]
    rfl
  · intro d i hi
    rw [List.get_eq_getElem]
    have h2 : i < (ramdaRange 0 (d + 1)).length := by
      simpa only [countsSelectList, List.length_map] using hi
    show ((ramdaRange 0 (d + 1)).map (fun index =>
      "length(interval_" ++ toString index ++ "_users) AS interval_"
        ++ toString index ++ "_user_count"))[i] = _
    rw [List.getElem_map, ramdaRange_getElem 0 (d + 1) i h2, zero_add]

/-- Claim C7 witness: the synthesized expression counts at a concrete
interval count. -/
theorem claim_c7_witness :
    ((usersSelectList "on_or_after" 3).length = 3 + 1
      ∧ (countsSelectList 3).length = 3 + 1) := by
  have h := claim_c7_cohort.2.1 "on_or_after" 3 (by norm_num)
  simpa using h

/-- The accumulation pass preserves the accumulator length. -/
theorem accumWeighted_length (s : ℚ) :
    ∀ (acc : List (ℚ × ℚ)) (vs : List ℚ), (accumWeighted s acc vs).length = acc.length := by
  intro acc
  induction acc with
  | nil => intro vs; cases vs <;> rfl
  | cons a acc ih =>
    intro vs
    cases vs with
    | nil => rfl
    | cons v vs2 => simp [accumWeighted, ih vs2]

/-- Pointwise description of one accumulation pass: the entry at a
position receives the row size and the weighted value exactly when the
value at that position is non zero. -/
theorem accumWeighted_getElem? (s : ℚ) :
    ∀ (acc : List (ℚ × ℚ)) (vs : List ℚ), vs.length = acc.length → ∀ (i : Nat),
      (accumWeighted s acc vs)[i]? = acc[i]?.map (fun a =>
        if vs.getD i 0 ≠ 0 then (a.1 + s, a.2 + vs.getD i 0 * s) else a) := by
  intro acc
  induction acc with
  | nil =>
    intro vs h i
    have hnil : vs = [] := List.eq_nil_of_length_eq_zero (by simpa using h)
    subst hnil
    simp [accumWeighted]
  | cons a acc ih =>
    intro vs h i
    cases vs with
    | nil => simp at h
    | cons v vs2 =>
      have h2 : vs2.length = acc.length := by simpa using h
      cases i with
      | zero => simp [accumWeighted]
      | succ i =>
        simp only [accumWeighted, List.getElem?_cons_succ, List.getD_cons_succ]
        exact ih vs2 h2 i

/-- Folding the accumulation pass over rows preserves the accumulator
length. -/
theorem foldl_accumWeighted_length :
    ∀ (rows : List CohortProcessedRow) (acc : List (ℚ × ℚ)),
      (rows.foldl (fun a r => accumWeighted r.sum a r.values) acc).length = acc.length := by
  intro rows
  induction rows with
  | nil => intro acc; rfl
  | cons r rows ih =>
    intro acc
    simp only [List.foldl_cons]
    rw [ih, accumWeighted_length]

/-- The value accumulator component of the aggregation loop is the fold
of the accumulation pass over the value lists alone. -/
theorem cohortFold_snd_fst :
    ∀ (rows : List CohortProcessedRow) (t : ℚ) (accV accP : List (ℚ × ℚ)),
      (rows.foldl cohortFoldStep (t, accV, accP)).2.1
        = rows.foldl (fun a r => accumWeighted r.sum a r.values) accV := by
  intro rows
  induction rows with
  | nil => intro t accV accP; rfl
  | cons r rows ih =>
    intro t accV accP
    simp only [List.foldl_cons, cohortFoldStep]
    exact ih _ _ _

/-- Head step of the contributing size sum. -/
theorem contribSum_cons (r : CohortProcessedRow) (rows : List CohortProcessedRow) (i : Nat) :
    contribSum (r :: rows) i =
      if r.values.getD i 0 ≠ 0 then r.sum + contribSum rows i else contribSum rows i := by
  unfold contribSum
  rw [List.filter_cons]
  by_cases h : r.values.getD i 0 ≠ 0
  · rw [if_pos (decide_eq_true h), if_pos h, List.map_cons, List.sum_cons]
  · rw [if_neg (fun hh => h (of_decide_eq_true hh)), if_neg h]

/-- Head step of the contributing weighted sum. -/
theorem contribWeightedSum_cons (r : CohortProcessedRow) (rows : List CohortProcessedRow)
    (i : Nat) :
    contribWeightedSum (r :: rows) i =
      if r.values.getD i 0 ≠ 0 then
        r.values.getD i 0 * r.sum + contribWeightedSum rows i
      else contribWeightedSum rows i := by
  unfold contribWeightedSum
  rw [List.filter_cons]
  by_cases h : r.values.getD i 0 ≠ 0
  · rw [if_pos (decide_eq_true h), if_pos h, List.map_cons, List.sum_cons]
  · rw [if_neg (fun hh => h (of_decide_eq_true hh)), if_neg h]

/-- Closed description of the folded aggregation loop: at every
position, the accumulator entry receives the total size of the
contributing rows and the total of value times size over the
contributing rows, where a row contributes exactly when its value at
that position is non zero. -/
theorem foldl_accum_getElem? :
    ∀ (rows : List CohortProcessedRow) (acc : List (ℚ × ℚ)),
      (∀ r ∈ rows, r.values.length = acc.length) → ∀ (i : Nat),
      (rows.foldl (fun a r => accumWeighted r.sum a r.values) acc)[i]? =
        acc[i]?.map (fun a =>
          (a.1 + contribSum rows i, a.2 + contribWeightedSum rows i)) := by
  intro rows
  induction rows with
  | nil =>
    intro acc h i
    simp only [List.foldl_nil]
    cases hacc : acc[i]? <;> simp [contribSum, contribWeightedSum]
  | cons r rows ih =>
    intro acc h i
    simp only [List.foldl_cons]
    have hrl : r.values.length = acc.length := h r (List.mem_cons_self r rows)
    have hlen2 : ∀ q ∈ rows, q.values.length = (accumWeighted r.sum acc r.values).length := by
      intro q hq
      rw [accumWeighted_length]
      exact h q (List.mem_cons_of_mem r hq)
    rw [ih (accumWeighted r.sum acc r.values) hlen2 i,
      accumWeighted_getElem? r.sum acc r.values hrl i, Option.map_map,
      contribSum_cons, contribWeightedSum_cons]
    cases hacc : acc[i]? with
    | none => rfl
    | some a =>
      by_cases hv : r.values.getD i 0 = 0
      · have hv2 : r.values[i]?.getD 0 = 0 := by simpa [List.getD] using hv
        simp [Function.comp, hv, hv2]
      · have hv2 : ¬ (r.values[i]?.getD 0 = 0) := by simpa [List.getD] using hv
        simp [Function.comp, hv, hv2, add_assoc]

/-- The value list of a processed row has one entry per interval
index. -/
theorem processCohortRow_values_length (d : Int) (row : CohortRow) :
    (processCohortRow d row).values.length = (ramdaRange 0 (d + 1)).length := by
  simp [processCohortRow]

/-- Claim C8: on every non empty input the aggregator places a synthetic
weighted average row first, followed by the processed per cohort rows;
at every index its value is computed over only the cohorts whose value
at that index is non zero, as the half up rounding of the accumulated
value times size total divided by the accumulated size total, and it
is zero when no cohort contributes; on the concrete two cohort example
with sizes ten and twenty the weighted average values are five at
index zero and ten at index one, confirming zero exclusion rather than
a naive mean. -/
theorem claim_c8_weighted_average :
    (∀ (data : List CohortRow) (d : Int), data ≠ [] →
      ∃ avg : CohortProcessedRow,
        processCohortData data d = avg :: data.map (processCohortRow d)
        ∧ avg.cohort_interval = "Weighted Average"
        ∧ avg.values.length = (ramdaRange 0 (d + 1)).length
        ∧ (∀ i : Nat, i < avg.values.length →
            avg.values[i]? = some (
              if contribSum (data.map (processCohortRow d)) i > 0 then
                roundTo (contribWeightedSum (data.map (processCohortRow d)) i /
                  contribSum (data.map (processCohortRow d)) i) 0
              else 0))
        ∧ (∀ i : Nat, i < avg.values.length →
            (data.map (processCohortRow d)).filter
                (fun r => decide (r.values.getD i 0 ≠ 0)) = [] →
              avg.values[i]? = some 0))
    ∧ ((processCohortData c8ExampleRows 1).map (fun r => r.values)
        = [[5, 10], [5, 0], [0, 10]]) := by
  constructor
  · intro data d hne
    cases data with
    | nil => exact absurd rfl hne
    | cons r0 rest =>
      have hlenhyp : ∀ r ∈ (r0 :: rest).map (processCohortRow d),
          r.values.length
            = ((ramdaRange 0 (d + 1)).map (fun _ => ((0 : ℚ), (0 : ℚ)))).length := by
        intro r hr
        rw [List.length_map]
        obtain ⟨row, hrow, rfl⟩ := List.mem_map.mp hr
        exact processCohortRow_values_length d row
      refine ⟨_, rfl, rfl, ?_, ?_, ?_⟩
      · rw [List.length_map, cohortFold_snd_fst, foldl_accumWeighted_length,
          List.length_map]
      · intro i hi
        rw [List.length_map, cohortFold_snd_fst, foldl_accumWeighted_length] at hi
        rw [List.getElem?_map, cohortFold_snd_fst,
          foldl_accum_getElem? _ _ hlenhyp i,
          List.getElem?_eq_getElem hi, List.getElem_map]
        simp
      · intro i hi hfil
        rw [List.length_map, cohortFold_snd_fst, foldl_accumWeighted_length] at hi
        have hS : contribSum ((r0 :: rest).map (processCohortRow d)) i = 0 := by
          unfold contribSum
          rw [hfil]
          rfl
        have hW : contribWeightedSum ((r0 :: rest).map (processCohortRow d)) i = 0 := by
          unfold contribWeightedSum
          rw [hfil]
          rfl
        rw [List.getElem?_map, cohortFold_snd_fst,
          foldl_accum_getElem? _ _ hlenhyp i,
          List.getElem?_eq_getElem hi, List.getElem_map]
        simp only [Option.map_some']
        rw [hS, hW]
        norm_num
  · norm_num [c8ExampleRows, processCohortData, processCohortRow, cohortFoldStep,
      accumWeighted, ramdaRange, roundTo, List.range_succ]
    constructor <;> decide

/-- Claim C8 witness: the closed description applied to the concrete example
rows at index zero. -/
theorem claim_c8_witness :
    ∃ avg : CohortProcessedRow,
      processCohortData c8ExampleRows 1 = avg :: c8ExampleRows.map (processCohortRow 1)
        ∧ avg.cohort_interval = "Weighted Average" := by
  obtain ⟨avg, h1, h2, h3⟩ :=
    claim_c8_weighted_average.1 c8ExampleRows 1 (by simp [c8ExampleRows])
  exact ⟨avg, h1, h2⟩
